import Mathlib

/-!
Verification development for the cryptiga/ui backtest engine.

The engine is given in `src/docs/plans/2026-02-16-backtest-ui.md` as the
`TechnicalProcessor` (Task 1), `BacktestRunner` (Task 2) and FastAPI service
(Task 4) sources; the comparison and history pages are
`src/app/backtest/compare/page.tsx` and the history page source.
Python floats are modelled as exact rationals (so the float literal 3.3 is
modelled as 33/10), datetimes as integer epoch seconds, and fallible Python
code (ZeroDivisionError, IndexError) as `Except`.

External collaborators that are not part of this repository (the pandas_ta
indicator functions, the `Signal` model and the `BacktestExecutor` of
cryptiga/analytics) are modelled from the spec; each such definition carries a
doc comment starting with "Modelled from the spec:".
-/

attribute [local semireducible] Rat.add Rat.sub Rat.mul Rat.inv Rat.ofScientific

set_option maxRecDepth 4000

/-- Truncation toward zero, modelling Python's `int()` conversion applied to a
float (`Int.div` truncates toward zero; all uses in the engine are on
non-negative values). -/
def pyInt (q : ℚ) : ℤ :=
  q.num.tdiv (q.den : ℤ)

/-- Round half to even to an integer, the tie-breaking rule of Python's
`round`. -/
def roundHalfEven (q : ℚ) : ℤ :=
  let f := ⌊q⌋
  let r := q - f
  if r < 1/2 then f
  else if 1/2 < r then f + 1
  else if f % 2 = 0 then f else f + 1

/-- Python's `round(x, 2)`: round to two decimal places, ties to even. -/
def round2 (q : ℚ) : ℚ :=
  (roundHalfEven (q * 100) : ℚ) / 100

/-- Python float division raising `ZeroDivisionError` on a zero divisor. -/
inductive RunError where
  | zeroDivision
  | indexError
deriving DecidableEq, Repr

def pydiv (a b : ℚ) : Except RunError ℚ :=
  if b = 0 then .error .zeroDivision else .ok (a / b)

/-- Signal direction (`"bullish"` / `"bearish"` strings in the source). -/
inductive Direction where
  | bullish
  | bearish
deriving DecidableEq, BEq, Repr

/-- The `Signal` model of cryptiga/analytics (fields as constructed by
`TechnicalProcessor._make_signal`, lines 234-249 of the plan). -/
structure Signal where
  coin : String
  direction : Direction
  confidence : ℤ
  source : String
  timestamp : ℤ
  expires_at : ℤ
deriving DecidableEq, Repr

/-- `SIGNAL_TTL = timedelta(hours=1)` in seconds. -/
def SIGNAL_TTL : ℤ := 3600

/-- `MIN_CANDLES = 30` (plan line 87). -/
def MIN_CANDLES : ℕ := 30

/-- `TechnicalProcessor._make_signal` (plan lines 234-249). -/
def mk_signal (coin : String) (direction : Direction) (confidence : ℤ)
    (source : String) (now : ℤ) : Signal :=
  ⟨coin, direction, confidence, source, now, now + SIGNAL_TTL⟩

/-- Modelled from the spec: the `Signal` model lives in cryptiga/analytics and
is not in this repository; the runner ranks signals by `abs(s.score)` while the
spec (§4.3) says the dominant signal is selected "by highest confidence", so
`score` is the confidence signed by direction and its magnitude is the
confidence. -/
def Signal.score (s : Signal) : ℤ :=
  match s.direction with
  | .bullish => s.confidence
  | .bearish => -s.confidence

def Signal.absScore (s : Signal) : ℤ := |s.score|

/-- One OHLCV bar (the `Candle` model of cryptiga/analytics; fields per the
spec's data model and the plan's test fixtures). -/
structure Candle where
  coin : String
  timeframe : String
  openPrice : ℚ
  high : ℚ
  low : ℚ
  close : ℚ
  volume : ℚ
  timestamp : ℤ
deriving DecidableEq, Repr

/-- The constructor parameters of `TechnicalProcessor` (plan lines 98-116).
RSI thresholds are integers in the source; they are compared against float RSI
values, so they are carried as rationals. -/
structure TechnicalProcessorCfg where
  rsi_period : ℕ
  rsi_oversold : ℚ
  rsi_overbought : ℚ
  macd_fast : ℕ
  macd_slow : ℕ
  macd_signal : ℕ
  sma_short : ℕ
  sma_long : ℕ
deriving DecidableEq, Repr

/-- The parameter names accepted by the `TechnicalProcessor` constructor
(plan lines 98-116). -/
def processorParamNames : List String :=
  ["rsi_period", "rsi_oversold", "rsi_overbought",
   "macd_fast", "macd_slow", "macd_signal", "sma_short", "sma_long"]

/-- Modelled from the spec: `pandas_ta.sma` is an external library function.
Per §4.1 an SMA of length n is the simple mean of the trailing n closes,
defined once at least n closes exist (earlier outputs are NaN / "no value"). -/
def smaLast (n : ℕ) (closes : List ℚ) : Option ℚ :=
  if 0 < n ∧ n ≤ closes.length then
    some ((closes.drop (closes.length - n)).sum / (n : ℚ))
  else none

/-- Successive differences of a list of closes. -/
def diffsOf : List ℚ → List ℚ
  | [] => []
  | [_] => []
  | a :: b :: rest => (b - a) :: diffsOf (b :: rest)

/-- Modelled from the spec: `pandas_ta.rsi` is an external library function.
Per §4.1 and the glossary, RSI is derived from the average gains/losses over
the trailing `period` candles and is undefined if fewer than `period + 1`
closes exist; a window with no movement at all yields "no value" (NaN), the
normal quiescent state of §7. -/
def rsiLast (period : ℕ) (closes : List ℚ) : Option ℚ :=
  if 0 < period ∧ period + 1 ≤ closes.length then
    let window := closes.drop (closes.length - (period + 1))
    let ds := diffsOf window
    let avgGain : ℚ := (ds.map (fun d => max d 0)).sum / (period : ℚ)
    let avgLoss : ℚ := (ds.map (fun d => max (-d) 0)).sum / (period : ℚ)
    if avgGain + avgLoss = 0 then none
    else some (100 * avgGain / (avgGain + avgLoss))
  else none

/-- Exponential moving average continuation step. -/
def emaFrom (alpha : ℚ) (e : ℚ) : List ℚ → List ℚ
  | [] => []
  | x :: xs =>
    let e2 := alpha * x + (1 - alpha) * e
    e2 :: emaFrom alpha e2 xs

/-- Modelled from the spec: the exponential moving average series used by the
MACD of §4.1 (fast/slow exponential averages of close and the signal line),
with the conventional smoothing factor 2/(span+1), seeded at the first value. -/
def emaSeries (span : ℕ) : List ℚ → List ℚ
  | [] => []
  | x :: xs => x :: emaFrom (2 / ((span : ℚ) + 1)) x xs

/-- Modelled from the spec: the MACD histogram series of §4.1,
histogram = (fast EMA − slow EMA) − signal line. -/
def macdHist (fast slow sig : ℕ) (closes : List ℚ) : List ℚ :=
  let macdLine := List.zipWith (fun a b => a - b)
    (emaSeries fast closes) (emaSeries slow closes)
  List.zipWith (fun a b => a - b) macdLine (emaSeries sig macdLine)

/-- The last two entries of a series, as (previous, current); `none` when the
series has fewer than two entries (`hist.iloc[-2]`, `hist.iloc[-1]`). -/
def last2 (l : List ℚ) : Option (ℚ × ℚ) :=
  match l.reverse with
  | c :: p :: _ => some (p, c)
  | _ => none

/-- The threshold logic of `TechnicalProcessor._rsi_signals` applied to the
current RSI value (plan lines 154-168): the float literal 3.3 is the rational
33/10 and Python `int()` truncates. -/
def rsiDecision (cfg : TechnicalProcessorCfg) (coin : String) (now : ℤ)
    (current_rsi : ℚ) : List Signal :=
  if current_rsi < cfg.rsi_oversold then
    [mk_signal coin .bullish
      (min 100 (pyInt ((cfg.rsi_oversold - current_rsi) * (33/10))))
      ("technical/rsi_oversold") now]
  else if cfg.rsi_overbought < current_rsi then
    [mk_signal coin .bearish
      (min 100 (pyInt ((current_rsi - cfg.rsi_overbought) * (33/10))))
      ("technical/rsi_overbought") now]
  else []

/-- `TechnicalProcessor._rsi_signals` (plan lines 144-168). -/
def rsi_signals (cfg : TechnicalProcessorCfg) (closes : List ℚ)
    (coin : String) (now : ℤ) : List Signal :=
  match rsiLast cfg.rsi_period closes with
  | none => []
  | some r => rsiDecision cfg coin now r

/-- `TechnicalProcessor._macd_signals` (plan lines 170-199). -/
def macd_signals (cfg : TechnicalProcessorCfg) (closes : List ℚ)
    (coin : String) (now : ℤ) : List Signal :=
  match last2 (macdHist cfg.macd_fast cfg.macd_slow cfg.macd_signal closes) with
  | none => []
  | some (previous, current) =>
    if previous < 0 ∧ 0 < current then
      [mk_signal coin .bullish (min 100 (max 30 (pyInt (|current| * 1000))))
        ("technical/macd_crossover") now]
    else if 0 < previous ∧ current < 0 then
      [mk_signal coin .bearish (min 100 (max 30 (pyInt (|current| * 1000))))
        ("technical/macd_crossover") now]
    else []

/-- `TechnicalProcessor._sma_signals` (plan lines 201-232); the previous SMA
values are the SMAs of the series without its last close. -/
def sma_signals (cfg : TechnicalProcessorCfg) (closes : List ℚ)
    (coin : String) (now : ℤ) : List Signal :=
  match smaLast cfg.sma_short closes, smaLast cfg.sma_long closes,
      smaLast cfg.sma_short closes.dropLast, smaLast cfg.sma_long closes.dropLast with
  | some short_val, some long_val, some prev_short, some prev_long =>
    if prev_short ≤ prev_long ∧ long_val < short_val then
      [mk_signal coin .bullish 55 ("technical/sma_golden_cross") now]
    else if prev_long ≤ prev_short ∧ short_val < long_val then
      [mk_signal coin .bearish 55 ("technical/sma_death_cross") now]
    else []
  | _, _, _, _ => []

def closesOf (candles : List Candle) : List ℚ := candles.map Candle.close

def coinOf : List Candle → String
  | [] => ""
  | c :: _ => c.coin

def lastTsOf (candles : List Candle) : ℤ :=
  match candles.getLast? with
  | some c => c.timestamp
  | none => 0

/-- `TechnicalProcessor.process` (plan lines 118-131): below `MIN_CANDLES` no
signals; otherwise the RSI, MACD and SMA generators are all evaluated, in that
fixed order. -/
def process (cfg : TechnicalProcessorCfg) (candles : List Candle) : List Signal :=
  if candles.length < MIN_CANDLES then []
  else
    rsi_signals cfg (closesOf candles) (coinOf candles) (lastTsOf candles) ++
    macd_signals cfg (closesOf candles) (coinOf candles) (lastTsOf candles) ++
    sma_signals cfg (closesOf candles) (coinOf candles) (lastTsOf candles)

/-- Python's `max(xs, key=...)` accumulator: the candidate is replaced only on
a strictly greater key, so the first maximal element wins ties. -/
def pyMaxAux {α : Type} (key : α → ℤ) (best : α) : List α → α
  | [] => best
  | s :: rest => pyMaxAux key (if key best < key s then s else best) rest

/-- Python's `max(xs, key=...)`; `none` for the empty list (where Python
raises; the runner only calls it on a non-empty list). -/
def pyMax {α : Type} (key : α → ℤ) : List α → Option α
  | [] => none
  | x :: xs => some (pyMaxAux key x xs)

/-- An open holding (the `Position` model of cryptiga/analytics; fields per the
spec's data model §3 and the DB schema of the Grafana plan). -/
structure Position where
  coin : String
  entry_price : ℚ
  quantity : ℚ
  opened_at : ℤ
deriving DecidableEq, Repr

/-- An executed order (the `Trade` model; fields per the spec's data model §3). -/
structure Trade where
  coin : String
  side : String
  quantity : ℚ
  price : ℚ
  amount : ℚ
  timestamp : ℤ
deriving DecidableEq, Repr

/-- The mutable state of one simulation run: the `Portfolio` (cash and the
instrument-to-position mapping), the executor's trade log, and the runner's
equity-curve / peak / max-drawdown loop variables. -/
structure LoopState where
  cash : ℚ
  positions : List (String × Position)
  trades : List Trade
  equity_curve : List (ℤ × ℚ)
  peak : ℚ
  max_drawdown : ℚ
deriving DecidableEq, Repr

/-- Lookup in the instrument-to-position mapping (`portfolio.positions`). -/
def posLookup (ps : List (String × Position)) (coin : String) : Option Position :=
  (ps.find? (fun p => p.1 == coin)).map Prod.snd

/-- Modelled from the spec: `BacktestExecutor.execute_buy` (§4.4, not in this
repository): deduct the amount from cash, create a Position at the current
close with quantity = amount / close (a zero close would raise
ZeroDivisionError), and append a buy Trade. -/
def execute_buy (st : LoopState) (coin : String) (amount : ℚ)
    (candle : Candle) : Except RunError LoopState :=
  match pydiv amount candle.close with
  | .error e => .error e
  | .ok quantity =>
    .ok ⟨st.cash - amount,
      (coin, ⟨coin, candle.close, quantity, candle.timestamp⟩) ::
        st.positions.filter (fun p => p.1 != coin),
      st.trades ++ [⟨coin, "buy", quantity, candle.close, amount, candle.timestamp⟩],
      st.equity_curve, st.peak, st.max_drawdown⟩

/-- Modelled from the spec: `BacktestExecutor.execute_sell` (§4.4, not in this
repository): credit quantity × current close to cash, remove the position from
the open mapping, and append a sell Trade; without an open position it is a
no-op (the runner only calls it when one exists). -/
def execute_sell (st : LoopState) (coin : String) (candle : Candle) : LoopState :=
  match posLookup st.positions coin with
  | none => st
  | some pos =>
    let proceeds := pos.quantity * candle.close
    ⟨st.cash + proceeds,
      st.positions.filter (fun p => p.1 != coin),
      st.trades ++ [⟨coin, "sell", pos.quantity, candle.close, proceeds, candle.timestamp⟩],
      st.equity_curve, st.peak, st.max_drawdown⟩

/-- One peak / max-drawdown update of `BacktestRunner.run` (plan lines
468-473): raise the peak to the value if exceeded, compute
drawdown = (peak − value) / peak × 100 when peak > 0 (else 0), and keep the
running maximum. -/
def ddStep (pm : ℚ × ℚ) (value : ℚ) : ℚ × ℚ :=
  let peak := if pm.1 < value then value else pm.1
  let drawdown := if 0 < peak then (peak - value) / peak * 100 else 0
  (peak, if pm.2 < drawdown then drawdown else pm.2)

/-- Mark-to-market of the open positions at a close price (plan lines
461-463). -/
def positionsValue (ps : List (String × Position)) (close : ℚ) : ℚ :=
  (ps.map (fun p => p.2.quantity * close)).sum

/-- `BacktestRunner` constructor arguments (plan lines 395-423). -/
structure RunnerCfg where
  capital : ℚ
  position_size_pct : ℚ
  proc : TechnicalProcessorCfg
deriving DecidableEq, Repr

/-- The parameter names accepted by the `BacktestRunner` constructor
(plan lines 398-411). -/
def runnerParamNames : List String :=
  ["capital", "position_size_pct", "rsi_period", "rsi_oversold",
   "rsi_overbought", "macd_fast", "macd_slow", "macd_signal",
   "sma_short", "sma_long"]

/-- The trade decision of one loop step of `BacktestRunner.run` (plan lines
447-458), given the dominant signal (`best`, `None` when no signal fired):
bullish with no open position and amount above the minimum opens a position
sized at `cash × position_size_pct / 100`; bearish with an open position
closes it; anything else is a no-op. -/
def tradeOn (cfg : RunnerCfg) (current : Candle) (st : LoopState)
    (best : Option Signal) : Except RunError LoopState :=
  match best with
  | none => .ok st
  | some b =>
    if b.direction = Direction.bullish ∧ posLookup st.positions current.coin = none then
      let amount := st.cash * (cfg.position_size_pct / 100)
      if 1 < amount then execute_buy st current.coin amount current else .ok st
    else if b.direction = Direction.bearish ∧ (posLookup st.positions current.coin).isSome then
      .ok (execute_sell st current.coin current)
    else .ok st

/-- One loop step of `BacktestRunner.run` for the given current candle (plan
lines 442-473): act on the dominant signal, then record the (2-decimal
rounded) equity point and update peak / max drawdown from the unrounded
value. -/
def stepWith (cfg : RunnerCfg) (current : Candle) (st : LoopState)
    (best : Option Signal) : Except RunError LoopState :=
  match tradeOn cfg current st best with
  | .error e => .error e
  | .ok st2 =>
    let value := st2.cash + positionsValue st2.positions current.close
    let pm := ddStep (st2.peak, st2.max_drawdown) value
    .ok ⟨st2.cash, st2.positions, st2.trades,
      st2.equity_curve ++ [(current.timestamp, round2 value)],
      pm.1, pm.2⟩

/-- One loop step of `BacktestRunner.run` at a window `candles[: i + 1]`:
the processor sees only the window, and the dominant signal is the Python
`max` over the fired signals keyed by `abs(score)`. -/
def stepAt (cfg : RunnerCfg) (window : List Candle) (st : LoopState) :
    Except RunError LoopState :=
  match window.getLast? with
  | none => .error .indexError
  | some current =>
    stepWith cfg current st (pyMax Signal.absScore (process cfg.proc window))

/-- The simulation loop of `BacktestRunner.run` over a list of step indices:
step `i` observes the window `candles.take (i + 1)`. -/
def loopSteps (cfg : RunnerCfg) (candles : List Candle) (idxs : List ℕ)
    (st : LoopState) : Except RunError LoopState :=
  match idxs with
  | [] => .ok st
  | i :: rest =>
    match stepAt cfg (candles.take (i + 1)) st with
    | .error e => .error e
    | .ok st2 => loopSteps cfg candles rest st2

/-- `BacktestRunner._count_wins_losses` (plan lines 502-515): fold over the
trade log keeping the last buy price per coin; a sell with a recorded buy
counts as a win if strictly above the buy price, else a loss, and clears the
recorded buy. -/
def countWinsLosses (trades : List Trade) : ℕ × ℕ :=
  let r := trades.foldl
    (fun (acc : ℕ × ℕ × List (String × ℚ)) t =>
      if t.side = "buy" then
        (acc.1, acc.2.1, (t.coin, t.price) :: acc.2.2.filter (fun b => b.1 != t.coin))
      else if t.side = "sell" then
        match acc.2.2.find? (fun b => b.1 == t.coin) with
        | some b =>
          if b.2 < t.price then
            (acc.1 + 1, acc.2.1, acc.2.2.filter (fun x => x.1 != t.coin))
          else
            (acc.1, acc.2.1 + 1, acc.2.2.filter (fun x => x.1 != t.coin))
        | none => acc
      else acc)
    (0, 0, [])
  (r.1, r.2.1)

/-- `BacktestReport` (plan lines 346-357). -/
structure BacktestReport where
  starting_capital : ℚ
  final_value : ℚ
  total_return_pct : ℚ
  buy_hold_return_pct : ℚ
  trade_count : ℕ
  win_count : ℕ
  loss_count : ℕ
  trades : List Trade
  equity_curve : List (ℤ × ℚ)
  max_drawdown_pct : ℚ
deriving DecidableEq, Repr

/-- The post-loop assembly of `BacktestRunner.run` (plan lines 475-500):
mark-to-market the final value at the last close, compute the total return and
the buy-and-hold benchmark (each division can raise ZeroDivisionError), count
wins/losses and build the report (max drawdown rounded to 2 decimals). -/
def finishRun (cfg : RunnerCfg) (c0 lastC : Candle) (st : LoopState) :
    Except RunError BacktestReport :=
  match pydiv (st.cash + positionsValue st.positions lastC.close - cfg.capital)
      cfg.capital with
  | .error e => .error e
  | .ok tr =>
    match pydiv (lastC.close - c0.close) c0.close with
    | .error e => .error e
    | .ok bh =>
      .ok ⟨cfg.capital, st.cash + positionsValue st.positions lastC.close,
        tr * 100, bh * 100, st.trades.length, (countWinsLosses st.trades).1,
        (countWinsLosses st.trades).2, st.trades, st.equity_curve,
        round2 st.max_drawdown⟩

/-- `BacktestRunner.run` (plan lines 425-500): seed the equity curve with the
starting capital at the first candle's timestamp, loop from index
`MIN_CANDLES` to the end, then assemble the report. An empty candle list
would raise IndexError. -/
def run (cfg : RunnerCfg) : List Candle → Except RunError BacktestReport
  | [] => .error .indexError
  | c0 :: rest =>
    match loopSteps cfg (c0 :: rest)
        (List.range' MIN_CANDLES ((c0 :: rest).length - MIN_CANDLES))
        ⟨cfg.capital, [], [], [(c0.timestamp, cfg.capital)], cfg.capital, 0⟩ with
    | .error e => .error e
    | .ok st => finishRun cfg c0 ((c0 :: rest).getLastD c0) st

/-- `BacktestRequest` (plan lines 761-776): the whole recognized configuration
surface of the API; the Pydantic model declares plain typed fields with
defaults and no range constraints. -/
structure BacktestRequest where
  name : Option String
  symbol : String
  timeframe : String
  days : ℕ
  capital : ℚ
  position_size_pct : ℚ
  rsi_period : ℕ
  rsi_oversold : ℚ
  rsi_overbought : ℚ
  macd_fast : ℕ
  macd_slow : ℕ
  macd_signal : ℕ
  sma_short : ℕ
  sma_long : ℕ
deriving DecidableEq, Repr

/-- The field names of `BacktestRequest` (plan lines 761-776). -/
def requestFieldNames : List String :=
  ["name", "symbol", "timeframe", "days", "capital", "position_size_pct",
   "rsi_period", "rsi_oversold", "rsi_overbought",
   "macd_fast", "macd_slow", "macd_signal", "sma_short", "sma_long"]

/-- How `run_backtest` forwards the request parameters to `BacktestRunner`
(plan lines 785-796). -/
def runnerOf (req : BacktestRequest) : RunnerCfg :=
  ⟨req.capital, req.position_size_pct,
    ⟨req.rsi_period, req.rsi_oversold, req.rsi_overbought,
     req.macd_fast, req.macd_slow, req.macd_signal,
     req.sma_short, req.sma_long⟩⟩

/-- API-level outcome: the 400 "Not enough candles" rejection, or an
exception escaping from the runner. -/
inductive ApiError where
  | badRequest
  | runtime (e : RunError)
deriving DecidableEq, Repr

/-- The `/api/backtest/run` endpoint `run_backtest` (plan lines 779-797) with
the candles already fetched: the only pre-simulation check is
`len(candles) < 30`; no configuration parameter is validated. -/
def run_backtest (req : BacktestRequest) (candles : List Candle) :
    Except ApiError BacktestReport :=
  if candles.length < 30 then .error .badRequest
  else
    match run (runnerOf req) candles with
    | .error e => .error (.runtime e)
    | .ok r => .ok r

/-- A persisted run as read back by the comparison page (`Run` in
`src/app/backtest/compare/page.tsx`): the stored `params` document is the full
request dump (`req.model_dump()`, plan line 799). -/
structure RunRecord where
  id : String
  name : Option String
  params : BacktestRequest
deriving DecidableEq, Repr

/-- The keys of `PARAM_LABELS` in order
(`src/app/backtest/compare/page.tsx` lines 39-51). -/
def paramLabelKeys : List String :=
  ["capital", "position_size_pct", "rsi_period", "rsi_oversold",
   "rsi_overbought", "macd_fast", "macd_slow", "macd_signal",
   "sma_short", "sma_long", "days"]

/-- JavaScript `String(run.params[key])` for the numeric keys the compare page
tracks (distinct numbers stringify distinctly, so string equality mirrors
value equality). -/
def paramString (p : BacktestRequest) (key : String) : String :=
  if key = "capital" then toString p.capital
  else if key = "position_size_pct" then toString p.position_size_pct
  else if key = "rsi_period" then toString p.rsi_period
  else if key = "rsi_oversold" then toString p.rsi_oversold
  else if key = "rsi_overbought" then toString p.rsi_overbought
  else if key = "macd_fast" then toString p.macd_fast
  else if key = "macd_slow" then toString p.macd_slow
  else if key = "macd_signal" then toString p.macd_signal
  else if key = "sma_short" then toString p.sma_short
  else if key = "sma_long" then toString p.sma_long
  else if key = "days" then toString p.days
  else "undefined"

def allEqual : List String → Bool
  | [] => true
  | x :: xs => xs.all (fun y => y == x)

/-- The parameter-diff set of `CompareContent`
(`src/app/backtest/compare/page.tsx` lines 99-112): the `PARAM_LABELS` keys
whose stringified values are not all equal across the compared runs. -/
def diffParams (runs : List RunRecord) : List String :=
  paramLabelKeys.filter (fun key =>
    !(allEqual (runs.map (fun r => paramString r.params key))))

/-- Follows the spec's words (§4.6 with the configuration surface of §6): the
set of configuration parameters whose values differ across the compared runs,
over every recognized configuration option carried by the request (the
`stop_loss_pct` / `take_profit_pct` options of §6 do not exist on the request
and so cannot differ). -/
def specConfigKeys : List String :=
  ["symbol", "timeframe", "days", "capital", "position_size_pct",
   "rsi_period", "rsi_oversold", "rsi_overbought",
   "macd_fast", "macd_slow", "macd_signal", "sma_short", "sma_long"]

def specParamString (p : BacktestRequest) (key : String) : String :=
  if key = "symbol" then p.symbol
  else if key = "timeframe" then p.timeframe
  else paramString p key

/-- Follows the spec's words: the parameter-diff set the claim describes,
computed over the full configuration surface. -/
def specDiffParams (runs : List RunRecord) : List String :=
  specConfigKeys.filter (fun key =>
    !(allEqual (runs.map (fun r => specParamString r.params key))))

/-- The header row of the metrics comparison table
(`src/app/backtest/compare/page.tsx` lines 1719-1728 of the plan): a "Metric"
cell followed by one cell per run. -/
def metricsHeaderCells (runs : List RunRecord) : List String :=
  "Metric" :: (List.range runs.length).zipWith
    (fun i r => match r.name with
      | some n => n
      | none => "Run " ++ toString (i + 1))
    runs

/-- The number of per-run columns of the metrics table. -/
def metricsRunColumns (runs : List RunRecord) : ℕ :=
  (metricsHeaderCells runs).length - 1

/-- `toggle` of the history page (`src/unnamed/part_001` lines 36-43): a
selected id is deselected; an unselected id is added only while fewer than 5
runs are selected. -/
def toggle (selected : Finset String) (id : String) : Finset String :=
  if id ∈ selected then selected.erase id
  else if selected.card < 5 then insert id selected
  else selected

/-! Concrete fixtures used by counterexamples and witnesses. -/

/-- The default processor parameters (plan lines 98-116). -/
def defaultProc : TechnicalProcessorCfg := ⟨14, 30, 70, 12, 26, 9, 10, 20⟩

/-- The default runner configuration: capital 1000, position size 20% (plan
lines 398-411). -/
def cfgDefault : RunnerCfg := ⟨1000, 20, defaultProc⟩

/-- The default request (plan lines 761-776). -/
def reqDefault : BacktestRequest :=
  ⟨none, "BTC/USD", "1h", 90, 1000, 20, 14, 30, 70, 12, 26, 9, 10, 20⟩

def btc : String := "BTC/USD"

/-- A candle with all prices equal to `p`, hourly timestamps. -/
def flatCandle (p : ℚ) (i : ℕ) : Candle :=
  ⟨btc, "1h", p, p, p, p, 1, 1704067200 + 3600 * (i : ℤ)⟩

/-- Candle `i` of a strict linear decline: close 50000 − 100·i. -/
def declineCandle (i : ℕ) : Candle :=
  flatCandle (50000 - 100 * (i : ℚ)) i

/-- 31 strictly declining candles: at step 30 the RSI is 0 (all losses), so a
strong bullish signal fires. -/
def decline31 : List Candle := (List.range 31).map declineCandle

/-- The decline followed by one candle whose close dips only 2 below the
previous close: the open position loses a tiny fraction. -/
def dipCandles : List Candle :=
  decline31 ++ [flatCandle 46998 31]

/-- 30 flat candles at close 1000 (loop body never runs). -/
def flat30 : List Candle := (List.range 30).map (flatCandle 1000)

/-- 30 candles whose first close is −1 (degenerate benchmark input, claim
C4). -/
def negFirst30 : List Candle :=
  flatCandle (-1) 0 :: (List.range 29).map (fun i => flatCandle 1 (i + 1))

/-- 30 candles whose first close is 0. -/
def zeroFirst30 : List Candle :=
  flatCandle 0 0 :: (List.range 29).map (fun i => flatCandle 1 (i + 1))

/-- 31 flat candles at close 1: no indicator produces any signal. -/
def flatOne31 : List Candle := (List.range 31).map (flatCandle 1)

/-- 30 closes whose trailing 14 differences are one gain of 27, twelve zero
moves, and one loss of 73: the modelled RSI is exactly 27. -/
def rsi27closes : List ℚ :=
  (List.replicate 16 1000) ++ (List.replicate 13 1027) ++ [954]

/-- An invalid request: `position_size_pct = 200` lies outside (0, 100]. -/
def badReq : BacktestRequest :=
  ⟨none, "BTC/USD", "1h", 90, 1000, 200, 14, 30, 70, 12, 26, 9, 10, 20⟩

/-- A request equal to the default except for its timeframe. -/
def reqTF (tf : String) : BacktestRequest :=
  ⟨none, "BTC/USD", tf, 90, 1000, 20, 14, 30, 70, 12, 26, 9, 10, 20⟩

def runTF1 : RunRecord := ⟨"a", none, reqTF ("1h")⟩

def runTF4 : RunRecord := ⟨"b", none, reqTF ("4h")⟩

/-- A request equal to the default except for its RSI oversold threshold. -/
def reqOS (os : ℚ) : BacktestRequest :=
  ⟨none, "BTC/USD", "1h", 90, 1000, 20, 14, os, 70, 12, 26, 9, 10, 20⟩

def runOS25 : RunRecord := ⟨"r1", none, reqOS 25⟩

def runOS30 : RunRecord := ⟨"r2", none, reqOS 30⟩

def runOS35 : RunRecord := ⟨"r3", none, reqOS 35⟩

/-- A loop state holding one deeply losing open position (entry 100) and no
cash to spare. -/
def losingState : LoopState :=
  ⟨800, [(btc, ⟨btc, 100, 2, 1704067200⟩)], [⟨btc, "buy", 2, 100, 200, 1704067200⟩],
    [(1704067200, 1000)], 1000, 0⟩

/-- Is the dominant signal of the window bearish? (`false` also when no signal
fires.) -/
def dominantIsBearish (cfg : TechnicalProcessorCfg) (window : List Candle) : Bool :=
  match pyMax Signal.absScore (process cfg window) with
  | some b => decide (b.direction = Direction.bearish)
  | none => false

/-- Does an equity curve ever fall strictly below its running peak? -/
def fellBelowAux (peak : ℚ) : List ℚ → Bool
  | [] => false
  | v :: vs =>
    if v < peak then true
    else fellBelowAux (if peak < v then v else peak) vs

def fellBelowPeak : List ℚ → Bool
  | [] => false
  | v :: vs => fellBelowAux v vs

/-- Follows the spec's words: `round` as written in §4.2's confidence formula
(round to the nearest integer), to compare with the code's `int()`
truncation. -/
def specRound (q : ℚ) : ℤ := round q

/-- Whether an API outcome is the 400 rejection. -/
def isBadRequestOutcome : Except ApiError BacktestReport → Bool
  | .error .badRequest => true
  | _ => false

/-- 5 candles: fewer than `MIN_CANDLES`. -/
def short5 : List Candle := (List.range 5).map (flatCandle 1000)

/-- The report of a run over `flat30` (loop body empty). -/
def reportFlat : BacktestReport :=
  ⟨1000, 1000, 0, 0, 0, 0, 0, [], [(1704067200, 1000)], 0⟩

/-- A 32-candle series agreeing with `dipCandles` on the first 31 candles and
diverging at index 31. -/
def divergent32 : List Candle := decline31 ++ [flatCandle 40000 31]

/-- The loop state after one step of `flatOne31` from `losingState`: the
losing position is still open. -/
def losingStepped : LoopState :=
  ⟨800, [(btc, ⟨btc, 100, 2, 1704067200⟩)],
    [⟨btc, "buy", 2, 100, 200, 1704067200⟩],
    [(1704067200, 1000), (1704175200, 802)], 1000, 99/5⟩

instance {ε α : Type} [DecidableEq ε] [DecidableEq α] : DecidableEq (Except ε α) :=
  fun a b =>
    match a, b with
    | .error e1, .error e2 =>
      if h : e1 = e2 then isTrue (by rw [h]) else
        isFalse (fun he => h (Except.error.inj he))
    | .ok x, .ok y =>
      if h : x = y then isTrue (by rw [h]) else
        isFalse (fun he => h (Except.ok.inj he))
    | .error _, .ok _ => isFalse (fun he => Except.noConfusion he)
    | .ok _, .error _ => isFalse (fun he => Except.noConfusion he)

/-- The run form's parameter state `Params`
(`src/app/backtest/page.tsx` lines 29-49): besides the engine parameters it
carries the three per-indicator toggles and the nullable stop-loss /
take-profit percentages, and the whole object is posted as the JSON body of
`/api/backtest/run` (lines 235-239). -/
structure FormParams where
  name : String
  symbol : String
  timeframe : String
  days : ℕ
  capital : ℚ
  position_size_pct : ℚ
  use_rsi : Bool
  rsi_period : ℕ
  rsi_oversold : ℚ
  rsi_overbought : ℚ
  use_macd : Bool
  macd_fast : ℕ
  macd_slow : ℕ
  macd_signal : ℕ
  use_sma : Bool
  sma_short : ℕ
  sma_long : ℕ
  stop_loss_pct : Option ℚ
  take_profit_pct : Option ℚ
deriving DecidableEq, Repr

/-- The JSON keys the run form posts (`src/app/backtest/page.tsx` lines
29-49). -/
def formFieldNames : List String :=
  ["name", "symbol", "timeframe", "days", "capital", "position_size_pct",
   "use_rsi", "rsi_period", "rsi_oversold", "rsi_overbought",
   "use_macd", "macd_fast", "macd_slow", "macd_signal",
   "use_sma", "sma_short", "sma_long", "stop_loss_pct", "take_profit_pct"]

/-- How the posted form body is read into `BacktestRequest` at the API
boundary: Pydantic populates exactly the model's declared fields (plan lines
761-776) and, by its default configuration, silently ignores every other key
of the JSON body — here `use_rsi`, `use_macd`, `use_sma`, `stop_loss_pct`
and `take_profit_pct`. -/
def parseRequest (f : FormParams) : BacktestRequest :=
  ⟨some f.name, f.symbol, f.timeframe, f.days, f.capital, f.position_size_pct,
   f.rsi_period, f.rsi_oversold, f.rsi_overbought,
   f.macd_fast, f.macd_slow, f.macd_signal, f.sma_short, f.sma_long⟩

/-- The form with its risk-management fields replaced (what the Stop Loss /
Take Profit checkboxes and inputs edit, `src/app/backtest/page.tsx` lines
341-364). -/
def withRisk (f : FormParams) (sl tp : Option ℚ) : FormParams :=
  ⟨f.name, f.symbol, f.timeframe, f.days, f.capital, f.position_size_pct,
   f.use_rsi, f.rsi_period, f.rsi_oversold, f.rsi_overbought,
   f.use_macd, f.macd_fast, f.macd_slow, f.macd_signal,
   f.use_sma, f.sma_short, f.sma_long, sl, tp⟩

/-- The form with its indicator toggles replaced (what the RSI / MACD / SMA
`Toggle` controls edit, `src/app/backtest/page.tsx` lines 371-387). -/
def withToggles (f : FormParams) (ur um us : Bool) : FormParams :=
  ⟨f.name, f.symbol, f.timeframe, f.days, f.capital, f.position_size_pct,
   ur, f.rsi_period, f.rsi_oversold, f.rsi_overbought,
   um, f.macd_fast, f.macd_slow, f.macd_signal,
   us, f.sma_short, f.sma_long, f.stop_loss_pct, f.take_profit_pct⟩

/-- `DEFAULTS` of the run form (`src/app/backtest/page.tsx` lines 51-71). -/
def formDefaults : FormParams :=
  ⟨"", "BTC/USD", "1h", 90, 1000, 20, true, 14, 30, 70,
   true, 12, 26, 9, true, 10, 20, none, none⟩

/-- The default form with the Stop Loss checkbox ticked: the checkbox sets
`stop_loss_pct` to 5 (`src/app/backtest/page.tsx` line 345). -/
def stopLossForm : FormParams := withRisk formDefaults (some 5) none

/-- The form state after applying the Trend Following preset to the defaults
(`src/app/backtest/page.tsx` lines 105-117, 218-223): RSI disabled, MACD and
SMA enabled, SMA 10/30, stop loss 5, take profit 15. -/
def trendPresetParams : FormParams :=
  ⟨"", "BTC/USD", "1h", 90, 1000, 20, false, 14, 30, 70,
   true, 12, 26, 9, true, 10, 30, some 5, some 15⟩

/-- 40 candles crashing by 1000 per step: a position bought at step 30
(close 20000) is 45% under water by the last candle (close 11000). -/
def crash40 : List Candle :=
  (List.range 40).map (fun (i : ℕ) => flatCandle (50000 - 1000 * (i : ℚ)) i)

/-! Theorems. -/

theorem pyInt_nonneg (q : ℚ) (h : 0 ≤ q) : 0 ≤ pyInt q :=
  Int.tdiv_nonneg (Rat.num_nonneg.mpr h) (by positivity)

theorem pyMaxAux_spec {α : Type} (key : α → ℤ) (l : List α) :
    ∀ b : α,
      (pyMaxAux key b l = b ∧ ∀ s ∈ l, key s ≤ key b) ∨
      (∃ i : ℕ, l[i]? = some (pyMaxAux key b l) ∧ key b < key (pyMaxAux key b l) ∧
        (∀ s ∈ l, key s ≤ key (pyMaxAux key b l)) ∧
        (∀ (j : ℕ) (s : α), j < i → l[j]? = some s → key s < key (pyMaxAux key b l))) := by
  induction l with
  | nil =>
    intro b
    exact Or.inl ⟨rfl, by simp⟩
  | cons a t ih =>
    intro b
    by_cases hba : key b < key a
    · have h1 : pyMaxAux key b (a :: t) = pyMaxAux key a t := by
        simp [pyMaxAux, hba]
      rcases ih a with ⟨he, hall⟩ | ⟨i, hi, hgt, hall, hstrict⟩
      · refine Or.inr ⟨0, ?_, ?_, ?_, ?_⟩
        · rw [h1, he]; simp
        · rw [h1, he]; exact hba
        · rw [h1, he]
          intro s hs
          rcases List.mem_cons.mp hs with rfl | hs
          · exact le_refl _
          · exact hall s hs
        · intro j s hj _
          omega
      · refine Or.inr ⟨i + 1, ?_, ?_, ?_, ?_⟩
        · rw [h1]; simpa using hi
        · rw [h1]; exact hba.trans hgt
        · rw [h1]
          intro s hs
          rcases List.mem_cons.mp hs with rfl | hs
          · exact le_of_lt hgt
          · exact hall s hs
        · rw [h1]
          intro j s hj hjs
          cases j with
          | zero =>
            have : a = s := by simpa using hjs
            exact this ▸ hgt
          | succ j2 =>
            exact hstrict j2 s (by omega) (by simpa using hjs)
    · have hab : key a ≤ key b := not_lt.mp hba
      have h1 : pyMaxAux key b (a :: t) = pyMaxAux key b t := by
        simp [pyMaxAux, hba]
      rcases ih b with ⟨he, hall⟩ | ⟨i, hi, hgt, hall, hstrict⟩
      · refine Or.inl ⟨by rw [h1, he], ?_⟩
        intro s hs
        rcases List.mem_cons.mp hs with rfl | hs
        · exact hab
        · exact hall s hs
      · refine Or.inr ⟨i + 1, ?_, ?_, ?_, ?_⟩
        · rw [h1]; simpa using hi
        · rw [h1]; exact hgt
        · rw [h1]
          intro s hs
          rcases List.mem_cons.mp hs with rfl | hs
          · exact le_of_lt (lt_of_le_of_lt hab hgt)
          · exact hall s hs
        · rw [h1]
          intro j s hj hjs
          cases j with
          | zero =>
            have : a = s := by simpa using hjs
            exact this ▸ lt_of_le_of_lt hab hgt
          | succ j2 =>
            exact hstrict j2 s (by omega) (by simpa using hjs)

theorem pyMax_spec {α : Type} (key : α → ℤ) (l : List α) (h : l ≠ []) :
    ∃ (r : α) (i : ℕ), pyMax key l = some r ∧ l[i]? = some r ∧
      (∀ s ∈ l, key s ≤ key r) ∧
      (∀ (j : ℕ) (s : α), j < i → l[j]? = some s → key s < key r) := by
  match l with
  | [] => exact absurd rfl h
  | x :: xs =>
    rcases pyMaxAux_spec key xs x with ⟨he, hall⟩ | ⟨i, hi, _, hall, hstrict⟩
    · refine ⟨x, 0, ?_, by simp, ?_, ?_⟩
      · simp [pyMax, he]
      · intro s hs
        rcases List.mem_cons.mp hs with rfl | hs
        · exact le_refl _
        · exact hall s hs
      · intro j s hj _
        omega
    · refine ⟨pyMaxAux key x xs, i + 1, ?_, ?_, ?_, ?_⟩
      · simp [pyMax]
      · simpa using hi
      · intro s hs
        rcases List.mem_cons.mp hs with rfl | hs
        · exact le_of_lt (by assumption)
        · exact hall s hs
      · intro j s hj hjs
        cases j with
        | zero =>
          have : x = s := by simpa using hjs
          exact this ▸ (by assumption)
        | succ j2 =>
          exact hstrict j2 s (by omega) (by simpa using hjs)

theorem mem_rsi_signals_conf {cfg : TechnicalProcessorCfg} {cl : List ℚ}
    {co : String} {now : ℤ} {s : Signal} (hs : s ∈ rsi_signals cfg cl co now) :
    0 ≤ s.confidence := by
  unfold rsi_signals at hs
  rcases hr : rsiLast cfg.rsi_period cl with _ | r <;> rw [hr] at hs <;>
    dsimp only at hs
  · simp at hs
  · unfold rsiDecision at hs
    split_ifs at hs with h1 h2
    · simp only [List.mem_singleton] at hs
      subst hs
      refine le_min (by norm_num) (pyInt_nonneg _ ?_)
      have hpos : 0 ≤ cfg.rsi_oversold - r := by linarith
      positivity
    · simp only [List.mem_singleton] at hs
      subst hs
      refine le_min (by norm_num) (pyInt_nonneg _ ?_)
      have hpos : 0 ≤ r - cfg.rsi_overbought := by linarith
      positivity
    · simp at hs

theorem mem_macd_signals_conf {cfg : TechnicalProcessorCfg} {cl : List ℚ}
    {co : String} {now : ℤ} {s : Signal} (hs : s ∈ macd_signals cfg cl co now) :
    0 ≤ s.confidence := by
  unfold macd_signals at hs
  rcases h2 : last2 (macdHist cfg.macd_fast cfg.macd_slow cfg.macd_signal cl)
    with _ | ⟨p, c⟩ <;> rw [h2] at hs <;> dsimp only at hs
  · simp at hs
  · split_ifs at hs with hb1 hb2
    · simp only [List.mem_singleton] at hs
      subst hs
      exact le_min (by norm_num) (le_trans (by norm_num) (le_max_left 30 _))
    · simp only [List.mem_singleton] at hs
      subst hs
      exact le_min (by norm_num) (le_trans (by norm_num) (le_max_left 30 _))
    · simp at hs

theorem mem_sma_signals_conf {cfg : TechnicalProcessorCfg} {cl : List ℚ}
    {co : String} {now : ℤ} {s : Signal} (hs : s ∈ sma_signals cfg cl co now) :
    0 ≤ s.confidence := by
  unfold sma_signals at hs
  split at hs
  · split_ifs at hs with hc1 hc2
    · simp only [List.mem_singleton] at hs
      subst hs
      norm_num [mk_signal]
    · simp only [List.mem_singleton] at hs
      subst hs
      norm_num [mk_signal]
    · simp at hs
  · simp at hs

theorem absScore_eq_confidence {s : Signal} (h : 0 ≤ s.confidence) :
    Signal.absScore s = s.confidence := by
  unfold Signal.absScore Signal.score
  rcases hd : s.direction
  · exact abs_of_nonneg h
  · rw [abs_neg]; exact abs_of_nonneg h

theorem process_eq {cfg : TechnicalProcessorCfg} {candles : List Candle}
    (h : MIN_CANDLES ≤ candles.length) :
    process cfg candles =
      rsi_signals cfg (closesOf candles) (coinOf candles) (lastTsOf candles) ++
      macd_signals cfg (closesOf candles) (coinOf candles) (lastTsOf candles) ++
      sma_signals cfg (closesOf candles) (coinOf candles) (lastTsOf candles) := by
  unfold process
  rw [if_neg (by omega)]

theorem mem_process_conf {cfg : TechnicalProcessorCfg} {candles : List Candle}
    {s : Signal} (hs : s ∈ process cfg candles) :
    0 ≤ s.confidence ∧ Signal.absScore s = s.confidence := by
  unfold process at hs
  split at hs
  · simp at hs
  · rcases List.mem_append.mp hs with h1 | h2
    · rcases List.mem_append.mp h1 with ha | hb
      · exact ⟨mem_rsi_signals_conf ha, absScore_eq_confidence (mem_rsi_signals_conf ha)⟩
      · exact ⟨mem_macd_signals_conf hb, absScore_eq_confidence (mem_macd_signals_conf hb)⟩
    · exact ⟨mem_sma_signals_conf h2, absScore_eq_confidence (mem_sma_signals_conf h2)⟩

theorem rsi_signals_length (cfg : TechnicalProcessorCfg) (cl : List ℚ)
    (co : String) (now : ℤ) : (rsi_signals cfg cl co now).length ≤ 1 := by
  unfold rsi_signals
  rcases rsiLast cfg.rsi_period cl with _ | r <;> dsimp only
  · simp
  · unfold rsiDecision
    split_ifs <;> simp

theorem macd_signals_length (cfg : TechnicalProcessorCfg) (cl : List ℚ)
    (co : String) (now : ℤ) : (macd_signals cfg cl co now).length ≤ 1 := by
  unfold macd_signals
  rcases last2 (macdHist cfg.macd_fast cfg.macd_slow cfg.macd_signal cl)
    with _ | ⟨p, c⟩ <;> dsimp only
  · simp
  · split_ifs <;> simp

theorem sma_signals_length (cfg : TechnicalProcessorCfg) (cl : List ℚ)
    (co : String) (now : ℤ) : (sma_signals cfg cl co now).length ≤ 1 := by
  unfold sma_signals
  split
  · split_ifs <;> simp
  · simp

theorem posLookup_cons_ne {p : String × Position} {t : List (String × Position)}
    {c : String} (h : p.1 ≠ c) : posLookup (p :: t) c = posLookup t c := by
  unfold posLookup
  rw [List.find?_cons_of_neg]
  simp [h]

theorem posLookup_cons_eq {p : String × Position} {t : List (String × Position)}
    {c : String} (h : p.1 = c) : posLookup (p :: t) c = some p.2 := by
  unfold posLookup
  rw [List.find?_cons_of_pos]
  · rfl
  · simp [h]

theorem posLookup_filter_ne (l : List (String × Position)) (c c0 : String)
    (h : c ≠ c0) :
    posLookup (l.filter (fun p => p.1 != c0)) c = posLookup l c := by
  induction l with
  | nil => rfl
  | cons p t ih =>
    rw [List.filter_cons]
    by_cases hp : p.1 = c0
    · rw [if_neg (by simp [hp])]
      have hne : p.1 ≠ c := by
        rw [hp]
        exact fun e => h e.symm
      rw [ih, posLookup_cons_ne hne]
    · rw [if_pos (by simp [hp])]
      by_cases hpc : p.1 = c
      · rw [posLookup_cons_eq hpc, posLookup_cons_eq hpc]
      · rw [posLookup_cons_ne hpc, posLookup_cons_ne hpc, ih]

theorem ddStep_nonneg (p m v : ℚ) (hm : 0 ≤ m) : 0 ≤ (ddStep (p, m) v).2 := by
  simp only [ddStep]
  by_cases h1 : p < v
  · rw [if_pos h1]
    by_cases h2 : (0 : ℚ) < v
    · rw [if_pos h2]
      have hz : (v - v) / v * 100 = 0 := by ring
      rw [hz]
      split_ifs with h3
      · exact le_refl 0
      · exact hm
    · rw [if_neg h2]
      split_ifs with h3
      · exact le_refl 0
      · exact hm
  · rw [if_neg h1]
    by_cases h2 : (0 : ℚ) < p
    · rw [if_pos h2]
      have hnn : 0 ≤ (p - v) / p * 100 := by
        have hvp : v ≤ p := not_lt.mp h1
        have hs : 0 ≤ p - v := by linarith
        positivity
      split_ifs with h3
      · exact hnn
      · exact hm
    · rw [if_neg h2]
      split_ifs with h3
      · exact le_refl 0
      · exact hm

theorem ddStep_formula (peak m value : ℚ) (hle : value ≤ peak) (hpos : 0 < peak) :
    (ddStep (peak, m) value).2 = max m ((peak - value) / peak * 100) := by
  simp only [ddStep]
  rw [if_neg (not_lt.mpr hle), if_pos hpos]
  rcases lt_or_ge m ((peak - value) / peak * 100) with h | h
  · rw [if_pos h, max_eq_right (le_of_lt h)]
  · rw [if_neg (not_lt.mpr h), max_eq_left h]

theorem round2_nonneg (q : ℚ) (h : 0 ≤ q) : 0 ≤ round2 q := by
  unfold round2
  have hf : (0 : ℤ) ≤ ⌊q * 100⌋ := Int.floor_nonneg.mpr (by positivity)
  have hr : (0 : ℤ) ≤ roundHalfEven (q * 100) := by
    simp only [roundHalfEven]
    split_ifs <;> omega
  have hq : (0 : ℚ) ≤ (roundHalfEven (q * 100) : ℚ) := by exact_mod_cast hr
  positivity

theorem execute_buy_dd {st st2 : LoopState} {coin : String} {amount : ℚ}
    {candle : Candle} (h : execute_buy st coin amount candle = .ok st2) :
    st2.max_drawdown = st.max_drawdown := by
  unfold execute_buy at h
  rcases hd : pydiv amount candle.close with e | q <;> rw [hd] at h <;>
    dsimp only at h
  · cases h
  · cases h
    rfl

theorem execute_sell_dd (st : LoopState) (coin : String) (candle : Candle) :
    (execute_sell st coin candle).max_drawdown = st.max_drawdown := by
  cases h : posLookup st.positions coin <;> simp [execute_sell, h]

theorem tradeOn_dd {cfg : RunnerCfg} {cur : Candle} {st st2 : LoopState}
    {b : Option Signal} (h : tradeOn cfg cur st b = .ok st2) :
    st2.max_drawdown = st.max_drawdown := by
  unfold tradeOn at h
  rcases b with _ | sig <;> dsimp only at h
  · cases h
    rfl
  · split_ifs at h with h1 h2 h3 <;>
      first
      | (exact execute_buy_dd h)
      | (cases h
         first
         | rfl
         | exact execute_sell_dd st cur.coin cur)

theorem stepWith_dd {cfg : RunnerCfg} {cur : Candle} {st st2 : LoopState}
    {b : Option Signal} (h : stepWith cfg cur st b = .ok st2)
    (hm : 0 ≤ st.max_drawdown) : 0 ≤ st2.max_drawdown := by
  unfold stepWith at h
  rcases ht : tradeOn cfg cur st b with e | st3 <;> rw [ht] at h <;>
    dsimp only at h
  · cases h
  · cases h
    have h3 := tradeOn_dd ht
    exact ddStep_nonneg _ _ _ (h3 ▸ hm)

theorem stepAt_dd {cfg : RunnerCfg} {w : List Candle} {st st2 : LoopState}
    (h : stepAt cfg w st = .ok st2) (hm : 0 ≤ st.max_drawdown) :
    0 ≤ st2.max_drawdown := by
  unfold stepAt at h
  rcases hl : w.getLast? with _ | cur <;> rw [hl] at h <;> dsimp only at h
  · cases h
  · exact stepWith_dd h hm

theorem loopSteps_dd {cfg : RunnerCfg} {candles : List Candle} :
    ∀ {idxs : List ℕ} {st st2 : LoopState},
      loopSteps cfg candles idxs st = .ok st2 → 0 ≤ st.max_drawdown →
      0 ≤ st2.max_drawdown := by
  intro idxs
  induction idxs with
  | nil =>
    intro st st2 h hm
    cases h
    exact hm
  | cons i rest ih =>
    intro st st2 h hm
    unfold loopSteps at h
    rcases hs : stepAt cfg (candles.take (i + 1)) st with e | st1 <;>
      rw [hs] at h <;> dsimp only at h
    · cases h
    · exact ih h (stepAt_dd hs hm)

theorem fellBelowAux_foldl (vals : List ℚ) :
    ∀ init : ℚ, fellBelowAux init vals = false →
      (vals.foldl ddStep (init, 0)).2 = 0 := by
  induction vals with
  | nil =>
    intro init _
    rfl
  | cons v vs ih =>
    intro init h
    unfold fellBelowAux at h
    by_cases hv : v < init
    · rw [if_pos hv] at h
      cases h
    · rw [if_neg hv] at h
      have hstep : ddStep (init, 0) v = ((if init < v then v else init), 0) := by
        simp only [ddStep]
        by_cases hiv : init < v
        · rw [if_pos hiv]
          have hz : (v - v) / v * 100 = 0 := by ring
          rw [hz]
          simp
        · rw [if_neg hiv]
          have he : v = init := le_antisymm (not_lt.mp hiv) (not_lt.mp hv)
          have hz : (init - v) / init * 100 = 0 := by rw [he]; ring
          rw [hz]
          simp
      rw [List.foldl_cons, hstep]
      exact ih _ h

/-- C1: at every step of a backtest run where one or more signals fire, the
decision policy acts on the single dominant signal: the Python `max` keyed by
`abs(score)` returns a signal of maximal confidence among the signals fired
that step, ties broken deterministically by the fixed source priority order
RSI, then MACD, then SMA (the generators are evaluated in that order, each
contributing at most one signal, and `max` keeps the earliest maximum); the
runner's step acts on exactly that signal. -/
theorem C1_dominant_signal (cfg : TechnicalProcessorCfg) (window : List Candle)
    (hne : process cfg window ≠ []) :
    ∃ best : Signal,
      pyMax Signal.absScore (process cfg window) = some best ∧
      best ∈ process cfg window ∧
      (∀ s ∈ process cfg window, s.confidence ≤ best.confidence) ∧
      (∃ i : ℕ, (process cfg window)[i]? = some best ∧
        ∀ (j : ℕ) (s : Signal), j < i → (process cfg window)[j]? = some s →
          s.confidence < best.confidence) ∧
      (process cfg window =
        rsi_signals cfg (closesOf window) (coinOf window) (lastTsOf window) ++
        macd_signals cfg (closesOf window) (coinOf window) (lastTsOf window) ++
        sma_signals cfg (closesOf window) (coinOf window) (lastTsOf window)) ∧
      (rsi_signals cfg (closesOf window) (coinOf window) (lastTsOf window)).length ≤ 1 ∧
      (macd_signals cfg (closesOf window) (coinOf window) (lastTsOf window)).length ≤ 1 ∧
      (sma_signals cfg (closesOf window) (coinOf window) (lastTsOf window)).length ≤ 1 ∧
      (∀ (rcfg : RunnerCfg) (st : LoopState) (cur : Candle), rcfg.proc = cfg →
        window.getLast? = some cur →
        stepAt rcfg window st =
          stepWith rcfg cur st (pyMax Signal.absScore (process cfg window))) := by
  have h30 : MIN_CANDLES ≤ window.length := by
    by_contra hlt
    exact hne (by unfold process; rw [if_pos (by omega)])
  obtain ⟨r, i, hmax, hget, hall, hstrict⟩ :=
    pyMax_spec Signal.absScore (process cfg window) hne
  have hmem : r ∈ process cfg window := by
    have := List.getElem?_eq_some.mp hget
    obtain ⟨hlt, he⟩ := this
    exact he ▸ List.getElem_mem hlt
  have hconfr := mem_process_conf hmem
  refine ⟨r, hmax, hmem, ?_, ⟨i, hget, ?_⟩, process_eq h30,
    rsi_signals_length cfg _ _ _, macd_signals_length cfg _ _ _,
    sma_signals_length cfg _ _ _, ?_⟩
  · intro s hs
    have hcs := mem_process_conf hs
    have := hall s hs
    rw [hcs.2, hconfr.2] at this
    exact this
  · intro j s hj hjs
    have hsm : s ∈ process cfg window := by
      have := List.getElem?_eq_some.mp hjs
      obtain ⟨hlt, he⟩ := this
      exact he ▸ List.getElem_mem hlt
    have hcs := mem_process_conf hsm
    have := hstrict j s hj hjs
    rw [hcs.2, hconfr.2] at this
    exact this
  · intro rcfg st cur hproc hcur
    unfold stepAt
    rw [hcur, hproc]

/-- C1 witness: on 31 strictly declining candles a bullish RSI signal fires
and the dominant-signal properties hold concretely. -/
theorem C1_witness :
    ∃ best : Signal,
      pyMax Signal.absScore (process defaultProc decline31) = some best ∧
      best ∈ process defaultProc decline31 ∧
      (∀ s ∈ process defaultProc decline31, s.confidence ≤ best.confidence) ∧
      (∃ i : ℕ, (process defaultProc decline31)[i]? = some best ∧
        ∀ (j : ℕ) (s : Signal), j < i →
          (process defaultProc decline31)[j]? = some s →
          s.confidence < best.confidence) ∧
      (process defaultProc decline31 =
        rsi_signals defaultProc (closesOf decline31) (coinOf decline31) (lastTsOf decline31) ++
        macd_signals defaultProc (closesOf decline31) (coinOf decline31) (lastTsOf decline31) ++
        sma_signals defaultProc (closesOf decline31) (coinOf decline31) (lastTsOf decline31)) ∧
      (rsi_signals defaultProc (closesOf decline31) (coinOf decline31) (lastTsOf decline31)).length ≤ 1 ∧
      (macd_signals defaultProc (closesOf decline31) (coinOf decline31) (lastTsOf decline31)).length ≤ 1 ∧
      (sma_signals defaultProc (closesOf decline31) (coinOf decline31) (lastTsOf decline31)).length ≤ 1 ∧
      (∀ (rcfg : RunnerCfg) (st : LoopState) (cur : Candle), rcfg.proc = defaultProc →
        decline31.getLast? = some cur →
        stepAt rcfg decline31 st =
          stepWith rcfg cur st (pyMax Signal.absScore (process defaultProc decline31))) :=
  C1_dominant_signal defaultProc decline31 (by decide)

/-- C9: no look-ahead — when two candle series agree up to and including index
n, every step up to n computes the same signals and the simulation loop over
any step indices at most n evolves identically: a step's decision depends only
on candles up to and including itself. -/
theorem C9_no_lookahead (cfg : RunnerCfg) (c1 c2 : List Candle) (n : ℕ)
    (h : c1.take (n + 1) = c2.take (n + 1)) :
    (∀ i : ℕ, i ≤ n →
      process cfg.proc (c1.take (i + 1)) = process cfg.proc (c2.take (i + 1))) ∧
    (∀ idxs : List ℕ, (∀ i ∈ idxs, i ≤ n) → ∀ st : LoopState,
      loopSteps cfg c1 idxs st = loopSteps cfg c2 idxs st) := by
  have htake : ∀ i : ℕ, i ≤ n → c1.take (i + 1) = c2.take (i + 1) := by
    intro i hi
    have e1 : c1.take (i + 1) = (c1.take (n + 1)).take (i + 1) := by
      rw [List.take_take, min_eq_left (by omega)]
    have e2 : c2.take (i + 1) = (c2.take (n + 1)).take (i + 1) := by
      rw [List.take_take, min_eq_left (by omega)]
    rw [e1, e2, h]
  constructor
  · intro i hi
    rw [htake i hi]
  · intro idxs
    induction idxs with
    | nil =>
      intro _ st
      rfl
    | cons i rest ih =>
      intro hmem st
      have hw := htake i (hmem i (by simp))
      unfold loopSteps
      rw [hw]
      rcases hs : stepAt cfg (c2.take (i + 1)) st with e | st1
      · rfl
      · exact ih (fun j hj => hmem j (List.mem_cons_of_mem i hj)) st1

/-- C9 witness: `dipCandles` and `divergent32` agree on their first 31 candles
and the no-look-ahead conclusions hold for them concretely at n = 30. -/
theorem C9_witness :
    (∀ i : ℕ, i ≤ 30 →
      process cfgDefault.proc (dipCandles.take (i + 1)) =
        process cfgDefault.proc (divergent32.take (i + 1))) ∧
    (∀ idxs : List ℕ, (∀ i ∈ idxs, i ≤ 30) → ∀ st : LoopState,
      loopSteps cfgDefault dipCandles idxs st =
        loopSteps cfgDefault divergent32 idxs st) :=
  C9_no_lookahead cfgDefault dipCandles divergent32 30 (by decide)

/-- C10: the history page's comparison selection never holds more than 5 runs:
any sequence of toggles starting from the empty selection keeps the cardinality
at most 5; toggling an already selected run always deselects it; toggling a new
run while 5 are selected is a no-op; and one toggle preserves the bound. -/
theorem C10_selection_bound :
    (∀ ops : List String, ((ops.foldl toggle ∅).card ≤ 5)) ∧
    (∀ (s : Finset String) (id : String), id ∈ s → toggle s id = s.erase id) ∧
    (∀ (s : Finset String) (id : String), id ∉ s → 5 ≤ s.card → toggle s id = s) ∧
    (∀ (s : Finset String) (id : String), s.card ≤ 5 → (toggle s id).card ≤ 5) := by
  have hpres : ∀ (s : Finset String) (id : String), s.card ≤ 5 →
      (toggle s id).card ≤ 5 := by
    intro s id h
    unfold toggle
    split_ifs with h1 h2
    · rw [Finset.card_erase_of_mem h1]
      omega
    · rw [Finset.card_insert_of_not_mem h1]
      omega
    · exact h
  refine ⟨?_, ?_, ?_, hpres⟩
  · have hfold : ∀ (ops : List String) (s : Finset String), s.card ≤ 5 →
        ((ops.foldl toggle s).card ≤ 5) := by
      intro ops
      induction ops with
      | nil =>
        intro s h
        simpa using h
      | cons o rest ih =>
        intro s h
        exact ih (toggle s o) (hpres s o h)
    intro ops
    exact hfold ops ∅ (by simp)
  · intro s id h
    unfold toggle
    rw [if_pos h]
  · intro s id h1 h2
    unfold toggle
    rw [if_neg h1, if_neg (by omega)]

/-- C10 witness: deselecting a selected id erases it, and toggling a sixth id
into a full selection of 5 is a no-op. -/
theorem C10_witness :
    toggle {"a"} "a" = ({"a"} : Finset String).erase ("a") ∧
    toggle ({"a", "b", "c", "d", "e"} : Finset String) "x" =
      ({"a", "b", "c", "d", "e"} : Finset String) := by
  constructor
  · exact C10_selection_bound.2.1 {"a"} "a" (by decide)
  · exact C10_selection_bound.2.2.1 {"a", "b", "c", "d", "e"} "x" (by decide) (by decide)

/-- C2 counterexample: a run can be configured with a stop-loss — the run
form's Stop Loss checkbox sets `stop_loss_pct` to 5 and posts it — but the
API request model lacks the field, so parsing silently drops it: the parsed
request equals the default-form request, and over `crash40` the position
bought at 20000 is never force-closed although its unrealized loss reaches
45% (far above the configured 5%) by the last step — the run's only trade is
the buy. -/
theorem C2_counterexample :
    ("stop_loss_pct" ∈ formFieldNames) ∧
    ("take_profit_pct" ∈ formFieldNames) ∧
    ("stop_loss_pct" ∉ requestFieldNames) ∧
    ("take_profit_pct" ∉ requestFieldNames) ∧
    stopLossForm.stop_loss_pct = some 5 ∧
    parseRequest stopLossForm = parseRequest formDefaults ∧
    ((run_backtest (parseRequest stopLossForm) crash40).map
        (fun r => (r.trade_count, r.trades.map Trade.side,
          r.trades.map Trade.price)) =
      .ok (1, ["buy"], [20000])) ∧
    (crash40.getLastD (flatCandle 0 0)).close = 11000 ∧
    ((20000 - 11000) / 20000 * 100 : ℚ) = 45 ∧ (5 : ℚ) < 45 := by
  refine ⟨by decide, by decide, by decide, by decide, by decide, by decide,
    by decide, by decide, by decide, by decide⟩

/-- C2 (amended): the run form implements and posts `stop_loss_pct` /
`take_profit_pct`, but the API request model does not declare them, so they
are silently dropped at the boundary — parsing a posted form yields the same
request whatever their values — and the engine evaluates no risk overlay at
any step: at any step whose dominant signal is not bearish an open position
survives unchanged, regardless of its unrealized loss or gain. -/
theorem C2_amended :
    (∀ (f : FormParams) (sl tp : Option ℚ),
      parseRequest (withRisk f sl tp) = parseRequest f) ∧
    (∀ (cfg : RunnerCfg) (window : List Candle) (st st2 : LoopState)
        (coin : String) (pos : Position),
      stepAt cfg window st = .ok st2 →
      posLookup st.positions coin = some pos →
      dominantIsBearish cfg.proc window = false →
      posLookup st2.positions coin = some pos) := by
  refine ⟨fun f sl tp => rfl, ?_⟩
  intro cfg window st st2 coin pos hstep hpos hdom
  unfold stepAt at hstep
  rcases hL : window.getLast? with _ | cur <;> rw [hL] at hstep <;>
    dsimp only at hstep
  · cases hstep
  · unfold stepWith at hstep
    rcases hT : tradeOn cfg cur st (pyMax Signal.absScore (process cfg.proc window))
      with e | st3 <;> rw [hT] at hstep <;> dsimp only at hstep
    · cases hstep
    · have hp3 : posLookup st3.positions coin = some pos := by
        unfold tradeOn at hT
        rcases hpm : pyMax Signal.absScore (process cfg.proc window) with _ | b <;>
          rw [hpm] at hT <;> dsimp only at hT
        · cases hT
          exact hpos
        · have hnb : b.direction ≠ Direction.bearish := by
            unfold dominantIsBearish at hdom
            rw [hpm] at hdom
            dsimp only at hdom
            exact of_decide_eq_false hdom
          by_cases h1 : b.direction = Direction.bullish ∧
              posLookup st.positions cur.coin = none
          · rw [if_pos h1] at hT
            by_cases h2 : (1 : ℚ) < st.cash * (cfg.position_size_pct / 100)
            · rw [if_pos h2] at hT
              unfold execute_buy at hT
              rcases hd : pydiv (st.cash * (cfg.position_size_pct / 100)) cur.close
                with e2 | q <;> rw [hd] at hT <;> dsimp only at hT
              · cases hT
              · cases hT
                have hcc : coin ≠ cur.coin := by
                  intro he
                  rw [he, h1.2] at hpos
                  cases hpos
                dsimp only
                rw [posLookup_cons_ne (fun e => hcc e.symm),
                  posLookup_filter_ne st.positions coin cur.coin hcc]
                exact hpos
            · rw [if_neg h2] at hT
              cases hT
              exact hpos
          · rw [if_neg h1] at hT
            by_cases h3 : b.direction = Direction.bearish ∧
                (posLookup st.positions cur.coin).isSome
            · exact absurd h3.1 hnb
            · rw [if_neg h3] at hT
              cases hT
              exact hpos
      cases hstep
      exact hp3

/-- C2 witness: the Conservative preset's stop-loss 3 / take-profit 8 are
dropped by the parse, and on the flat window (no bearish dominant signal) the
deeply losing open position of `losingState` survives the step. -/
theorem C2_witness :
    parseRequest (withRisk formDefaults (some 3) (some 8)) =
      parseRequest formDefaults ∧
    posLookup losingStepped.positions btc = some ⟨btc, 100, 2, 1704067200⟩ :=
  ⟨C2_amended.1 formDefaults (some 3) (some 8),
   C2_amended.2 cfgDefault flatOne31 losingState losingStepped btc
     ⟨btc, 100, 2, 1704067200⟩ (by decide) (by decide) (by decide)⟩

/-- C3 counterexample: the run form has independent `use_rsi` / `use_macd` /
`use_sma` toggles, but the API request model lacks them, so disabling an
indicator has no effect on the run: with the Trend Following preset (RSI
disabled) the RSI indicator still emits the step's only signal on the
31-candle decline, and that signal drives the run's buy — a disabled
indicator contributes signals. -/
theorem C3_counterexample :
    ("use_rsi" ∈ formFieldNames) ∧
    ("use_macd" ∈ formFieldNames) ∧
    ("use_sma" ∈ formFieldNames) ∧
    ("use_rsi" ∉ requestFieldNames) ∧
    ("use_macd" ∉ requestFieldNames) ∧
    ("use_sma" ∉ requestFieldNames) ∧
    trendPresetParams.use_rsi = false ∧
    ((process (runnerOf (parseRequest trendPresetParams)).proc decline31).map
        Signal.source = ["technical/rsi_oversold"]) ∧
    ((run_backtest (parseRequest trendPresetParams) decline31).map
        (fun r => r.trades.map Trade.side) = .ok ["buy"]) := by
  refine ⟨by decide, by decide, by decide, by decide, by decide, by decide,
    by decide, by decide, by decide⟩

/-- C3 (amended): each indicator is independently toggleable on the run form
(`use_rsi`, `use_macd`, `use_sma`), but the API request model does not
declare the toggles, so they are silently dropped at the boundary — the
parsed request is identical whatever the toggles — and the Signal Generator
evaluates all three indicators unconditionally at every step with at least
`MIN_CANDLES` candles: a disabled indicator still contributes its signals. -/
theorem C3_amended :
    (∀ (f : FormParams) (ur um us : Bool),
      parseRequest (withToggles f ur um us) = parseRequest f) ∧
    (∀ (cfg : TechnicalProcessorCfg) (candles : List Candle),
      (MIN_CANDLES ≤ candles.length →
        process cfg candles =
          rsi_signals cfg (closesOf candles) (coinOf candles) (lastTsOf candles) ++
          macd_signals cfg (closesOf candles) (coinOf candles) (lastTsOf candles) ++
          sma_signals cfg (closesOf candles) (coinOf candles) (lastTsOf candles)) ∧
      (candles.length < MIN_CANDLES → process cfg candles = [])) := by
  refine ⟨fun f ur um us => rfl, ?_⟩
  intro cfg candles
  constructor
  · exact fun h => process_eq h
  · intro h
    unfold process
    rw [if_pos h]

/-- C3 witness: re-enabling every toggle on the Trend preset parses to the
same request, the generator decomposition holds concretely on the 31-candle
decline, and a 5-candle series yields no signals. -/
theorem C3_witness :
    parseRequest (withToggles trendPresetParams true true true) =
      parseRequest trendPresetParams ∧
    (process defaultProc decline31 =
      rsi_signals defaultProc (closesOf decline31) (coinOf decline31) (lastTsOf decline31) ++
      macd_signals defaultProc (closesOf decline31) (coinOf decline31) (lastTsOf decline31) ++
      sma_signals defaultProc (closesOf decline31) (coinOf decline31) (lastTsOf decline31)) ∧
    process defaultProc short5 = [] :=
  ⟨C3_amended.1 trendPresetParams true true true,
   (C3_amended.2 defaultProc decline31).1 (by decide),
   (C3_amended.2 defaultProc short5).2 (by decide)⟩

/-- C4 counterexample: on a 30-candle series whose first close is −1 (≤ 0) the
run does not fail — the buy-and-hold benchmark is silently computed as −200%
and a full report is returned to the caller. -/
theorem C4_counterexample :
    (negFirst30.head?.map Candle.close = some (-1)) ∧
    ((run cfgDefault negFirst30).isOk = true) ∧
    ((run cfgDefault negFirst30).map BacktestReport.buy_hold_return_pct =
      .ok (-200)) := by
  refine ⟨by decide, by decide, by decide⟩

/-- C4 (amended): there is no data-quality check on the first close. On a
30-candle series (empty loop body) with nonzero capital: a first close of
exactly 0 makes the run fail with an (unhandled) ZeroDivisionError, while any
nonzero first close — including negative ones — lets the run succeed with the
benchmark silently computed as (last − first) / first × 100. -/
theorem C4_amended (cfg : RunnerCfg) (c0 : Candle) (rest : List Candle)
    (h30 : (c0 :: rest).length = 30) (hcap : cfg.capital ≠ 0) :
    (c0.close = 0 → run cfg (c0 :: rest) = .error .zeroDivision) ∧
    (c0.close ≠ 0 →
      (run cfg (c0 :: rest)).map BacktestReport.buy_hold_return_pct =
        .ok ((((c0 :: rest).getLastD c0).close - c0.close) / c0.close * 100)) := by
  have hcnt : (c0 :: rest).length - MIN_CANDLES = 0 := by
    rw [h30]
    rfl
  have hrun : run cfg (c0 :: rest) = finishRun cfg c0 ((c0 :: rest).getLastD c0)
      ⟨cfg.capital, [], [], [(c0.timestamp, cfg.capital)], cfg.capital, 0⟩ := by
    show (match loopSteps cfg (c0 :: rest)
        (List.range' MIN_CANDLES ((c0 :: rest).length - MIN_CANDLES))
        ⟨cfg.capital, [], [], [(c0.timestamp, cfg.capital)], cfg.capital, 0⟩ with
      | Except.error e => Except.error e
      | Except.ok st => finishRun cfg c0 ((c0 :: rest).getLastD c0) st) =
      finishRun cfg c0 ((c0 :: rest).getLastD c0)
        ⟨cfg.capital, [], [], [(c0.timestamp, cfg.capital)], cfg.capital, 0⟩
    rw [hcnt]
    rfl
  have hzero : cfg.capital + positionsValue []
      (((c0 :: rest).getLastD c0).close) - cfg.capital = 0 := by
    show cfg.capital + 0 - cfg.capital = 0
    ring
  constructor
  · intro h0
    rw [hrun]
    unfold finishRun
    rw [hzero]
    unfold pydiv
    rw [if_neg hcap]
    dsimp only
    rw [if_pos h0]
  · intro h0
    rw [hrun]
    unfold finishRun
    rw [hzero]
    unfold pydiv
    rw [if_neg hcap]
    dsimp only
    rw [if_neg h0]
    rfl

/-- C4 witness: a first close of 0 aborts the run with a ZeroDivisionError,
while a first close of −1 silently yields a −200% benchmark. -/
theorem C4_witness :
    run cfgDefault zeroFirst30 = .error .zeroDivision ∧
    (run cfgDefault negFirst30).map BacktestReport.buy_hold_return_pct =
      .ok (-200) := by
  constructor
  · exact (C4_amended cfgDefault (flatCandle 0 0)
      ((List.range 29).map (fun i => flatCandle 1 (i + 1)))
      (by decide) (by decide)).1 (by decide)
  · have h := (C4_amended cfgDefault (flatCandle (-1) 0)
      ((List.range 29).map (fun i => flatCandle 1 (i + 1)))
      (by decide) (by decide)).2 (by decide)
    exact h.trans (by decide)

/-- C5 counterexample: a request with `position_size_pct = 200` (outside
(0, 100]) is not rejected — the endpoint runs the simulation, a trade
executes, and a full report is returned. -/
theorem C5_counterexample :
    (100 < badReq.position_size_pct) ∧
    ((run_backtest badReq decline31).map BacktestReport.trade_count = .ok 1) := by
  refine ⟨by decide, by decide⟩

/-- C5 (amended): the only pre-simulation validation is the candle count — the
endpoint rejects with the 400 error exactly when fewer than 30 candles exist,
and its acceptance decision is entirely independent of every configuration
parameter (no range such as position_size_pct ∈ (0, 100] or sma_short <
sma_long is checked). -/
theorem C5_amended :
    (∀ (req : BacktestRequest) (candles : List Candle),
      run_backtest req candles = .error .badRequest ↔ candles.length < 30) ∧
    (∀ (req req' : BacktestRequest) (candles : List Candle),
      isBadRequestOutcome (run_backtest req candles) =
        isBadRequestOutcome (run_backtest req' candles)) := by
  have hchar : ∀ (req : BacktestRequest) (candles : List Candle),
      run_backtest req candles = .error .badRequest ↔ candles.length < 30 := by
    intro req candles
    unfold run_backtest
    by_cases hl : candles.length < 30
    · rw [if_pos hl]
      simp [hl]
    · rw [if_neg hl]
      constructor
      · intro h
        rcases hr : run (runnerOf req) candles with e | r <;> rw [hr] at h <;>
          dsimp only at h <;> simp at h
      · intro h
        exact absurd h hl
  refine ⟨hchar, ?_⟩
  intro req req' candles
  unfold run_backtest
  by_cases hl : candles.length < 30
  · rw [if_pos hl, if_pos hl]
  · rw [if_neg hl, if_neg hl]
    rcases run (runnerOf req) candles with e | r <;>
      rcases run (runnerOf req') candles with e2 | r2 <;> rfl

/-- C5 witness: a 5-candle series is rejected with the 400 error, while the
invalid `badReq` over 31 candles is not rejected. -/
theorem C5_witness :
    run_backtest reqDefault short5 = .error .badRequest ∧
    ¬ run_backtest badReq decline31 = .error .badRequest := by
  constructor
  · exact (C5_amended.1 reqDefault short5).mpr (by decide)
  · intro h
    exact absurd ((C5_amended.1 badReq decline31).mp h) (by decide)

/-- C6 counterexample: on `dipCandles` the equity curve falls below its running
peak (a dip of about 0.00085%), yet the reported `max_drawdown_pct` is exactly
0 because the running maximum is rounded to 2 decimals — refuting "equals 0
only if the curve never falls below its running peak". -/
theorem C6_counterexample :
    ((run cfgDefault dipCandles).map BacktestReport.max_drawdown_pct = .ok 0) ∧
    ((run cfgDefault dipCandles).map
        (fun r => fellBelowPeak (r.equity_curve.map Prod.snd)) = .ok true) := by
  refine ⟨by decide, by decide⟩

/-- C6 (amended): the reported `max_drawdown_pct` is always ≥ 0; if the equity
values never fall below the running peak the (pre-rounding) running maximum
drawdown is exactly 0; and each step's update takes the maximum of the running
value and (peak − value) / peak × 100 when peak > 0. The converse of the
zero-drawdown property holds only up to the final rounding to 2 decimals. -/
theorem C6_amended :
    (∀ (cfg : RunnerCfg) (candles : List Candle) (r : BacktestReport),
      run cfg candles = .ok r → 0 ≤ r.max_drawdown_pct) ∧
    (∀ (init : ℚ) (vals : List ℚ), fellBelowAux init vals = false →
      (vals.foldl ddStep (init, 0)).2 = 0) ∧
    (∀ (peak m value : ℚ), value ≤ peak → 0 < peak →
      (ddStep (peak, m) value).2 = max m ((peak - value) / peak * 100)) := by
  refine ⟨?_, fun init vals h => fellBelowAux_foldl vals init h, ddStep_formula⟩
  intro cfg candles r h
  rcases candles with _ | ⟨c0, rest⟩
  · exact Except.noConfusion h
  · unfold run at h
    dsimp only at h
    rcases hls : loopSteps cfg (c0 :: rest)
        (List.range' MIN_CANDLES ((c0 :: rest).length - MIN_CANDLES))
        ⟨cfg.capital, [], [], [(c0.timestamp, cfg.capital)], cfg.capital, 0⟩
      with e | st <;> rw [hls] at h <;> try dsimp only at h
    · cases h
    · have hdd : 0 ≤ st.max_drawdown := loopSteps_dd hls (le_refl 0)
      unfold finishRun at h
      rcases h1 : pydiv (st.cash + positionsValue st.positions
          (((c0 :: rest).getLastD c0).close) - cfg.capital) cfg.capital
        with e | tr <;> rw [h1] at h <;> try dsimp only at h
      · cases h
      · rcases h2 : pydiv ((((c0 :: rest).getLastD c0).close) - c0.close) c0.close
          with e | bh <;> rw [h2] at h <;> try dsimp only at h
        · cases h
        · cases h
          exact round2_nonneg _ hdd

/-- C6 witness: the nonnegativity holds at a concrete completed run, the pure
fold is 0 on a never-falling value list, and the step formula holds at
peak 2, value 1. -/
theorem C6_witness :
    (0 : ℚ) ≤ reportFlat.max_drawdown_pct ∧
    (([2, 3] : List ℚ).foldl ddStep (1, 0)).2 = 0 ∧
    (ddStep (2, 0) 1).2 = max 0 ((2 - 1) / 2 * 100) := by
  refine ⟨C6_amended.1 cfgDefault flat30 reportFlat (by decide),
    C6_amended.2.1 1 [2, 3] (by decide),
    C6_amended.2.2 2 0 1 (by norm_num) (by norm_num)⟩

/-- C7 counterexample: on a window whose RSI is exactly 27 (below the default
oversold threshold 30) the emitted confidence is 9 — the code truncates
(oversold − rsi) × 3.3 = 9.9 via `int()` — whereas the claim's formula
min(100, round(9.9)) gives 10. -/
theorem C7_counterexample :
    rsiLast 14 rsi27closes = some 27 ∧
    (rsi_signals defaultProc rsi27closes btc 0).map Signal.confidence = [9] ∧
    min 100 (specRound ((30 - 27) * (33/10) : ℚ)) = 10 := by
  refine ⟨by decide, by decide, by decide⟩

/-- C7 (amended): at every step where the RSI value is defined: below the
oversold threshold exactly one bullish signal is emitted with confidence
min(100, int((oversold − rsi) × 3.3)) where `int` truncates toward zero; above
the overbought threshold exactly one bearish signal with the mirrored
confidence; otherwise no RSI signal. -/
theorem C7_amended (cfg : TechnicalProcessorCfg) (closes : List ℚ)
    (coin : String) (now : ℤ) (r : ℚ)
    (hr : rsiLast cfg.rsi_period closes = some r) :
    (r < cfg.rsi_oversold →
      rsi_signals cfg closes coin now =
        [mk_signal coin .bullish
          (min 100 (pyInt ((cfg.rsi_oversold - r) * (33/10))))
          ("technical/rsi_oversold") now]) ∧
    (cfg.rsi_oversold ≤ r → cfg.rsi_overbought < r →
      rsi_signals cfg closes coin now =
        [mk_signal coin .bearish
          (min 100 (pyInt ((r - cfg.rsi_overbought) * (33/10))))
          ("technical/rsi_overbought") now]) ∧
    (cfg.rsi_oversold ≤ r → r ≤ cfg.rsi_overbought →
      rsi_signals cfg closes coin now = []) := by
  have hsig : rsi_signals cfg closes coin now = rsiDecision cfg coin now r := by
    unfold rsi_signals
    rw [hr]
  refine ⟨?_, ?_, ?_⟩
  · intro h1
    rw [hsig]
    unfold rsiDecision
    rw [if_pos h1]
  · intro h1 h2
    rw [hsig]
    unfold rsiDecision
    rw [if_neg (not_lt.mpr h1), if_pos h2]
  · intro h1 h2
    rw [hsig]
    unfold rsiDecision
    rw [if_neg (not_lt.mpr h1), if_neg (not_lt.mpr h2)]

/-- C7 witness: on the RSI = 27 window the single emitted signal is bullish
with (truncated) confidence 9. -/
theorem C7_witness :
    rsi_signals defaultProc rsi27closes btc 0 =
      [mk_signal btc .bullish 9 ("technical/rsi_oversold") 0] := by
  have h := (C7_amended defaultProc rsi27closes btc 0 27 (by decide)).1 (by decide)
  exact h.trans (by decide)

/-- C8 counterexample: two runs that differ only in `timeframe` — a recognized
configuration parameter — have an empty computed diff set, because the compare
page diffs only the 11 `PARAM_LABELS` keys; so the diff set is not "exactly
the set of configuration parameters whose values differ". -/
theorem C8_counterexample :
    diffParams [runTF1, runTF4] = [] ∧
    specDiffParams [runTF1, runTF4] = ["timeframe"] ∧
    runTF1.params.timeframe ≠ runTF4.params.timeframe := by
  refine ⟨by decide, by decide, by decide⟩

/-- C8 (amended): the parameter-diff set equals exactly the set of the 11
tracked parameters (capital, position_size_pct, the RSI/MACD/SMA parameters
and days — symbol and timeframe are not tracked) whose values differ across
the compared runs; the metrics table has exactly one column per run; and for
3 runs differing only in rsi_oversold the diff set is exactly {rsi_oversold}
with exactly 3 run columns. -/
theorem C8_amended :
    (∀ (runs : List RunRecord) (key : String),
      key ∈ diffParams runs ↔
        (key ∈ paramLabelKeys ∧
          allEqual (runs.map (fun r => paramString r.params key)) = false)) ∧
    (∀ runs : List RunRecord, metricsRunColumns runs = runs.length) ∧
    (diffParams [runOS25, runOS30, runOS35] = ["rsi_oversold"] ∧
      metricsRunColumns [runOS25, runOS30, runOS35] = 3) := by
  refine ⟨?_, ?_, ⟨by decide, by decide⟩⟩
  · intro runs key
    unfold diffParams
    rw [List.mem_filter]
    simp
  · intro runs
    unfold metricsRunColumns metricsHeaderCells
    simp [List.length_zipWith]

/-- C8 witness: the membership characterization at the rsi_oversold scenario
and the column count for a 2-run comparison. -/
theorem C8_witness :
    ("rsi_oversold" ∈ diffParams [runOS25, runOS30, runOS35] ↔
      ("rsi_oversold" ∈ paramLabelKeys ∧
        allEqual ([runOS25, runOS30, runOS35].map
          (fun r => paramString r.params ("rsi_oversold"))) = false)) ∧
    metricsRunColumns [runTF1, runTF4] = 2 :=
  ⟨C8_amended.1 [runOS25, runOS30, runOS35] ("rsi_oversold"),
   C8_amended.2.1 [runTF1, runTF4]⟩
